import Mathlib

/-!
Verification of the kitium-ai/logger core in a shallow Lean embedding.

The embedding covers:
* the redaction engine (src/middleware/express-middleware.ts, sanitizeData);
* the ambient context store (src/context/async-context.ts, ContextManager);
* the in-memory logger ring (src/logger/in-memory-logger.ts);
* the resilience wrappers (src/utils/error-handler.ts, retryWithBackoff and
  CircuitBreaker.execute);
* the central logger enrichment pipeline (src/logger/logger.ts,
  CentralLogger leveled methods and enrichWithContext) and the call-site
  enrichment of the console and file loggers (console-logger.ts log,
  file-logger.ts enrichLogData);
* the health check status aggregation (src/utils/health-check.ts,
  performHealthCheck).

Modelling conventions: machine integers are Nat; JavaScript values flowing
through the redaction engine are a JSON-like inductive; timers, random
jitter and real I/O are abstracted away (the claims under study are about
counts, ordering and state, not wall-clock durations); the external uuid
library is modelled as an injective generator of non-empty strings driven
by a counter; the Node AsyncLocalStorage primitive is modelled by an
explicit interleaved-trace machine in which each established scope owns
one mutable context cell.
-/

/-! ## Redaction engine (sanitizeData) -/

/-- JavaScript values reaching sanitizeData, as a JSON-like inductive.
Arrays and objects are encoded as cons chains inside the single type
(arrNil/arrCons and objNil/objCons), which keeps all recursion structural.
jnull is the JavaScript null. -/
inductive JVal where
  | jstr (s : String)
  | jnum (n : Int)
  | jbool (b : Bool)
  | jnull
  | arrNil
  | arrCons (head tail : JVal)
  | objNil
  | objCons (key : String) (value rest : JVal)
deriving DecidableEq, Repr

/-- ASCII lowering of one code point, the effect of toLowerCase on the
ASCII key names the redaction engine compares. -/
def lowerCode (n : Nat) : Nat := if 65 ≤ n ∧ n ≤ 90 then n + 32 else n

/-- A string as its list of lowered code points. -/
def lowerCodes (s : String) : List Nat := s.toList.map (fun c => lowerCode c.toNat)

/-- The sensitive-key test of sanitizeData:
sensitiveFields.some((field) => key.toLowerCase().includes(field.toLowerCase())). -/
def matchesSensitive (sensitiveFields : List String) (key : String) : Bool :=
  sensitiveFields.any fun field => decide (lowerCodes field <:+: lowerCodes key)

/-- The test, typeof value being object and value not null, of the source:
true exactly for arrays and objects, false for null and the scalars. -/
def isObjectLike : JVal → Bool
  | .arrNil => true
  | .arrCons _ _ => true
  | .objNil => true
  | .objCons _ _ _ => true
  | _ => false

/-- sanitizeData from src/middleware/express-middleware.ts.
Scalars and null are returned as-is (typeof data not object, or data null),
arrays map the sanitizer over their elements, and for each object entry a
sensitive key gets the fixed marker, an object-like value is recursed into,
and any other value is kept. -/
def sanitizeData (data : JVal) (sensitiveFields : List String) : JVal :=
  match data with
  | .jstr s => .jstr s
  | .jnum n => .jnum n
  | .jbool b => .jbool b
  | .jnull => .jnull
  | .arrNil => .arrNil
  | .arrCons h t => .arrCons (sanitizeData h sensitiveFields) (sanitizeData t sensitiveFields)
  | .objNil => .objNil
  | .objCons k v r =>
      if matchesSensitive sensitiveFields k then
        .objCons k (.jstr "[REDACTED]") (sanitizeData r sensitiveFields)
      else if isObjectLike v then
        .objCons k (sanitizeData v sensitiveFields) (sanitizeData r sensitiveFields)
      else
        .objCons k v (sanitizeData r sensitiveFields)

/-- Checks, at every nesting depth, that each object entry whose key matches
the sensitive list carries exactly the fixed redaction marker. -/
def allRedacted (v : JVal) (sensitiveFields : List String) : Bool :=
  match v with
  | .arrCons h t => allRedacted h sensitiveFields && allRedacted t sensitiveFields
  | .objCons k val r =>
      (if matchesSensitive sensitiveFields k then
        decide (val = JVal.jstr "[REDACTED]")
      else allRedacted val sensitiveFields) && allRedacted r sensitiveFields
  | _ => true

/-! ## Ambient context store (src/context/async-context.ts) -/

/-- Model of the external uuid library (uuidv4): an injective generator of
non-empty strings driven by a counter that advances on every draw. -/
def uuidv4 (n : Nat) : String := String.mk ('u' :: List.replicate n 'x')

/-- The LogContext of async-context.ts: traceId is required, the rest
optional; metadata is an open string map (modelled as an assoc list). -/
structure LogContext where
  traceId : String
  spanId : Option String
  userId : Option String
  requestId : Option String
  sessionId : Option String
  correlationId : Option String
  metadata : Option (List (String × String))
deriving DecidableEq, Repr

/-- The optional per-field initializers accepted by initContext
(the TypeScript argument of type with every LogContext field optional). -/
structure ContextSeed where
  traceId : Option String
  spanId : Option String
  userId : Option String
  requestId : Option String
  sessionId : Option String
  correlationId : Option String
  metadata : Option (List (String × String))
deriving DecidableEq, Repr

def emptySeed : ContextSeed := ⟨none, none, none, none, none, none, none⟩

/-- JavaScript falsy-or over an optional string field, as in
context?.traceId || uuidv4(): an absent or empty string draws a fresh
uuid (advancing the counter), anything else is kept. -/
def strOrFresh (o : Option String) (n : Nat) : String × Nat :=
  match o with
  | some s => if s = "" then (uuidv4 n, n + 1) else (s, n)
  | none => (uuidv4 n, n + 1)

/-- ContextManager.initContext: synthesizes traceId, spanId and requestId
(in source order) when absent, passes the other fields through. -/
def initContext (seed : ContextSeed) (n : Nat) : LogContext × Nat :=
  let (t, n1) := strOrFresh seed.traceId n
  let (sp, n2) := strOrFresh seed.spanId n1
  let (rq, n3) := strOrFresh seed.requestId n2
  (⟨t, some sp, seed.userId, some rq, seed.sessionId, seed.correlationId, seed.metadata⟩, n3)

/-- State of the ContextManager singleton: the AsyncLocalStorage store as
seen by the current execution (none outside any established scope) and the
uuid counter. -/
structure CMState where
  store : Option LogContext
  counter : Nat
deriving DecidableEq, Repr

/-- The six named LogContext fields reachable through get/set. -/
inductive CtxField where
  | traceId | spanId | userId | requestId | sessionId | correlationId
deriving DecidableEq, Repr

def getField (c : LogContext) : CtxField → Option String
  | .traceId => some c.traceId
  | .spanId => c.spanId
  | .userId => c.userId
  | .requestId => c.requestId
  | .sessionId => c.sessionId
  | .correlationId => c.correlationId

def setField (c : LogContext) : CtxField → String → LogContext
  | .traceId, v => { c with traceId := v }
  | .spanId, v => { c with spanId := some v }
  | .userId, v => { c with userId := some v }
  | .requestId, v => { c with requestId := some v }
  | .sessionId, v => { c with sessionId := some v }
  | .correlationId, v => { c with correlationId := some v }

namespace ContextManager

/-- ContextManager.getContext: returns the ambient context when one is
active; otherwise synthesizes a fresh default via initContext and returns
it WITHOUT installing it in the store. -/
def getContext (st : CMState) : LogContext × CMState :=
  match st.store with
  | some c => (c, st)
  | none =>
      let (c, n2) := initContext emptySeed st.counter
      (c, { st with counter := n2 })

/-- ContextManager.set: context[key] = value mutates the object returned by
getContext, which is the shared cell of the scope inside an established scope
and a discarded fresh default outside one. -/
def set (st : CMState) (f : CtxField) (v : String) : CMState :=
  match st.store with
  | some c => { st with store := some (setField c f v) }
  | none => (getContext st).2

/-- ContextManager.get: reads one field of the ambient (or synthesized)
context. -/
def get (st : CMState) (f : CtxField) : Option String × CMState :=
  let (c, st2) := getContext st
  (getField c f, st2)

/-- ContextManager.addMetadata: merges one key into the ambient metadata
map (created on first use); outside a scope the mutation lands on the
discarded default. The map insert is modelled as an assoc-list append. -/
def addMetadata (st : CMState) (key value : String) : CMState :=
  match st.store with
  | some c =>
      { st with store := some { c with metadata := some ((c.metadata.getD []) ++ [(key, value)]) } }
  | none => (getContext st).2

end ContextManager

/-! ## In-memory logger (src/logger/in-memory-logger.ts) -/

/-- The context snapshot copied field by field into a log entry by addLog. -/
structure EntryContext where
  traceId : String
  spanId : Option String
  userId : Option String
  requestId : Option String
  sessionId : Option String
  correlationId : Option String
deriving DecidableEq, Repr

/-- Error detail captured on a record (message and stack). -/
structure ErrInfo where
  message : String
  stack : Option String
deriving DecidableEq, Repr

/-- One emitted log record. The timestamp (an external clock read) is
omitted: no claim depends on it. Metadata is kept opaque as a string. -/
structure LogEntry where
  level : String
  message : String
  metadata : Option String
  context : EntryContext
  errorDetail : Option ErrInfo
deriving DecidableEq, Repr

/-- The field-by-field copy of the ambient context done inside addLog. -/
def snapshotOf (c : LogContext) : EntryContext :=
  ⟨c.traceId, c.spanId, c.userId, c.requestId, c.sessionId, c.correlationId⟩

def mkEntry (level message : String) (meta : Option String) (c : LogContext)
    (err : Option ErrInfo) : LogEntry :=
  ⟨level, message, meta, snapshotOf c, err⟩

structure InMemoryLogger where
  maxSize : Nat
  logs : List LogEntry
deriving DecidableEq, Repr

/-- JavaScript slice(-n): for n = 0 this is slice(0) (the whole array,
because -0 === 0); for n > 0, the last n elements. -/
def jsSliceLast (n : Nat) (l : List α) : List α :=
  if n = 0 then l else l.drop (l.length - n)

namespace InMemoryLogger

/-- InMemoryLogger.addLog: reads the ambient context synchronously, copies
it into the entry, pushes the entry, then trims with slice(-maxSize) when
the length exceeds maxSize. -/
def addLog (lg : InMemoryLogger) (st : CMState) (level message : String)
    (meta : Option String) (err : Option ErrInfo) : InMemoryLogger × CMState :=
  let (context, st2) := ContextManager.getContext st
  let pushed := lg.logs ++ [mkEntry level message meta context err]
  let newLogs := if lg.maxSize < pushed.length then jsSliceLast lg.maxSize pushed else pushed
  ({ lg with logs := newLogs }, st2)

/-- InMemoryLogger.getLogs returns (a copy of) the stored records. -/
def getLogs (lg : InMemoryLogger) : List LogEntry := lg.logs

end InMemoryLogger

/-- Appends one info record per message, threading the context-manager
state, as a caller invoking logger.info repeatedly. -/
def addMany (lg : InMemoryLogger) (st : CMState) (msgs : List String) :
    InMemoryLogger × CMState :=
  msgs.foldl (fun p m => InMemoryLogger.addLog p.1 p.2 "info" m none none) (lg, st)

/-! ## Interleaved-scope trace machine for AsyncLocalStorage (C1) -/

/-- One event of an interleaved execution: a context-field write
(contextManager.set) or a log emission, performed by the unit of work
established as scope sid (one contextManager.run call per scope). -/
inductive EvAct where
  | write (f : CtxField) (v : String)
  | emit (msg : String)
deriving DecidableEq, Repr

structure Ev where
  sid : Nat
  act : EvAct
deriving DecidableEq, Repr

/-- Pointwise update of the per-scope context cells: each established scope
owns one mutable context object, which a write mutates in place. -/
def updScope (scopes : Nat → LogContext) (i : Nat) (c : LogContext) : Nat → LogContext :=
  fun j => if j = i then c else scopes j

/-- Runs an interleaved trace over the per-scope cells and collects, in
emission order, each emitted record as (scope, context snapshot at the
call site) — the AsyncLocalStorage semantics of the code: a write mutates
only the cell of the writing scope, and an emission snapshots the cell of
the emitting scope. -/
def runTrace (scopes : Nat → LogContext) : List Ev → List (Nat × LogContext)
  | [] => []
  | e :: rest =>
      match e.act with
      | .write f v => runTrace (updScope scopes e.sid (setField (scopes e.sid) f v)) rest
      | .emit _ => (e.sid, scopes e.sid) :: runTrace scopes rest

/-- Applies a list of field writes in order to an initial context. -/
def applyWrites (c : LogContext) (ws : List (CtxField × String)) : LogContext :=
  ws.foldl (fun acc p => setField acc p.1 p.2) c

/-- Modelled from the spec: the records one unit of work must emit — each
snapshot of each record is the initial context of the scope with exactly the
writes made earlier in the same causal chain applied in order. -/
def specRecordsAux (s : Nat) (c0 : LogContext) (seen : List (CtxField × String)) :
    List Ev → List (Nat × LogContext)
  | [] => []
  | e :: rest =>
      match e.act with
      | .write f v => specRecordsAux s c0 (seen ++ [(f, v)]) rest
      | .emit _ => (s, applyWrites c0 seen) :: specRecordsAux s c0 seen rest

/-- Modelled from the spec: records of a causal chain, starting from no
writes seen. -/
def specRecords (s : Nat) (c0 : LogContext) (chain : List Ev) : List (Nat × LogContext) :=
  specRecordsAux s c0 [] chain

/-- The most recent value written to field f in a list of writes, if any. -/
def lastWrite (ws : List (CtxField × String)) (f : CtxField) : Option String :=
  match ws with
  | [] => none
  | (g, v) :: rest =>
      match lastWrite rest f with
      | some w => some w
      | none => if g = f then some v else none

/-! ## Resilience wrappers (src/utils/error-handler.ts) -/

/-- A log emission observable during a wrapper call (level and message). -/
inductive LogMsg where
  | debug (text : String)
  | info (text : String)
  | error (text : String)
deriving DecidableEq, Repr

/-- The retry loop of retryWithBackoff, modelled over the sequence of
attempt outcomes (fn gives the outcome of attempt i). Timing — setTimeout and
the random jitter — is abstracted away; invocation counting and the log
emissions are kept. remaining is maxRetries minus the current attempt
index. Returns (result, number of invocations, logs in emission order). -/
def retryAux (fn : Nat → Except String α) (attempt : Nat) :
    Nat → Except String α × Nat × List LogMsg
  | 0 =>
      match fn attempt with
      | .ok v => (.ok v, 1, [])
      | .error e => (.error e, 1, [])
  | remaining + 1 =>
      match fn attempt with
      | .ok v => (.ok v, 1, [])
      | .error _ =>
          let r := retryAux fn (attempt + 1) remaining
          (r.1, r.2.1 + 1, LogMsg.debug "Retry attempt" :: r.2.2)

/-- retryWithBackoff: runs attempts 0..maxRetries; a success returns
immediately; when every attempt fails, the last error is re-raised after
an error log is emitted. -/
def retryWithBackoff (fn : Nat → Except String α) (maxRetries : Nat) :
    Except String α × Nat × List LogMsg :=
  let r := retryAux fn 0 maxRetries
  match r.1 with
  | .ok v => (.ok v, r.2.1, r.2.2)
  | .error e => (.error e, r.2.1, r.2.2 ++ [LogMsg.error "All retry attempts failed"])

/-- Circuit breaker states; the open state of the source is named opened here
because open is a Lean keyword. -/
inductive CBState where
  | closed | opened | halfOpen
deriving DecidableEq, Repr

structure CircuitBreaker where
  failureCount : Nat
  lastFailureTime : Option Nat
  state : CBState
deriving DecidableEq, Repr

structure CBConfig where
  failureThreshold : Nat
  resetTimeoutMs : Nat
deriving DecidableEq, Repr

/-- Outcome of one CircuitBreaker.execute call. -/
inductive CBResult (α : Type) where
  | ok (v : α)
  | fnError (e : String)
  | circuitOpenError
deriving DecidableEq, Repr

/-- Output of one execute call: result, new breaker state, whether the
wrapped function was invoked, and the logs emitted during the call. -/
structure ExecOut (α : Type) where
  result : CBResult α
  cb : CircuitBreaker
  invoked : Bool
  logs : List LogMsg
deriving DecidableEq, Repr

/-- CircuitBreaker.setState: records the new state and logs an info line
when the state actually changed (the onStateChange callback fires on the
same condition and is not otherwise modelled). -/
def setState (cb : CircuitBreaker) (ns : CBState) : CircuitBreaker × List LogMsg :=
  ({ cb with state := ns },
    if cb.state ≠ ns then [LogMsg.info "Circuit breaker state changed"] else [])

/-- CircuitBreaker.execute at one call, given the current clock value and
the outcome of the wrapped function for this invocation. Mirrors the source:
an open breaker whose last failure is truthy (nonzero) and older than the
reset timeout moves to half-open; a still-open breaker rejects without
invoking and without logging; a success from half-open closes the breaker
and zeroes the counter; a failure increments the counter, stamps the time,
and opens the breaker (with logs) once the count reaches the threshold. -/
def CircuitBreaker.execute (cfg : CBConfig) (cb : CircuitBreaker) (now : Nat)
    (fnRes : Except String α) : ExecOut α :=
  let elapsed : Bool :=
    match cb.lastFailureTime with
    | some t => decide (0 < t) && decide (cfg.resetTimeoutMs < now - t)
    | none => false
  let g := if cb.state = CBState.opened ∧ elapsed = true
    then setState cb CBState.halfOpen else (cb, [])
  let cb1 := g.1
  let logs1 := g.2
  if cb1.state = CBState.opened then
    ⟨.circuitOpenError, cb1, false, logs1⟩
  else
    match fnRes with
    | .ok v =>
        if cb1.state = CBState.halfOpen then
          let h := setState cb1 CBState.closed
          ⟨.ok v, { h.1 with failureCount := 0 }, true, logs1 ++ h.2⟩
        else
          ⟨.ok v, cb1, true, logs1⟩
    | .error e =>
        let cb2 := { cb1 with failureCount := cb1.failureCount + 1, lastFailureTime := some now }
        if cfg.failureThreshold ≤ cb2.failureCount then
          let h := setState cb2 CBState.opened
          ⟨.fnError e, h.1, true,
            logs1 ++ h.2 ++ [LogMsg.error "Circuit breaker opened due to repeated failures"]⟩
        else
          ⟨.fnError e, cb2, true, logs1⟩

/-- One failing call folded by failRun: executes with a failing outcome and
accumulates whether every call so far invoked the wrapped function. -/
def failStep (cfg : CBConfig) (p : CircuitBreaker × Bool) (t : Nat) : CircuitBreaker × Bool :=
  let r := CircuitBreaker.execute cfg p.1 t (Except.error "boom" : Except String Unit)
  (r.cb, p.2 && r.invoked)

/-- A sequence of consecutive failing execute calls at the given times. -/
def failRun (cfg : CBConfig) (cb : CircuitBreaker) (ts : List Nat) : CircuitBreaker × Bool :=
  ts.foldl (failStep cfg) (cb, true)

/-! ## Central logger enrichment pipeline (src/logger/logger.ts) -/

/-- A winston info object flowing through the CentralLogger: the leveled
methods construct it from level, message and meta only; the context fields
are absent until a format step fills them. -/
structure WinstonInfo where
  level : String
  message : String
  meta : Option String
  traceId : Option String
  spanId : Option String
  userId : Option String
  requestId : Option String
  sessionId : Option String
  correlationId : Option String
deriving DecidableEq, Repr

/-- A CentralLogger leveled emission (error/warn/info/http/debug): the
source calls this.logger.log(level, (message, meta)) and reads no context
here — the info object hands off with every context field absent. -/
def centralEmit (level message : String) (meta : Option String) : WinstonInfo :=
  ⟨level, message, meta, none, none, none, none, none, none⟩

/-- JavaScript truthiness of an optional string, as used by the guards
if (context.spanId) and friends in enrichWithContext. -/
def truthy (o : Option String) : Bool :=
  match o with
  | some s => decide (s ≠ "")
  | none => false

/-- CentralLogger.enrichWithContext: the winston format installed in the
Loki transport pipeline. It runs when the backend formats the record and
reads contextManager.getContext() at that moment, stamping the info object
with the context ambient AT FORMAT TIME. -/
def enrichWithContext (info : WinstonInfo) (stAtFormat : CMState) : WinstonInfo × CMState :=
  let r := ContextManager.getContext stAtFormat
  let c := r.1
  ({ info with
      traceId := some c.traceId,
      spanId := if truthy c.spanId then c.spanId else info.spanId,
      userId := if truthy c.userId then c.userId else info.userId,
      requestId := if truthy c.requestId then c.requestId else info.requestId,
      sessionId := if truthy c.sessionId then c.sessionId else info.sessionId,
      correlationId := if truthy c.correlationId then c.correlationId else info.correlationId },
    r.2)

/-- The two-phase Loki path of a CentralLogger leveled call: the call phase
(ambient state stAtCall) builds the info object without touching the
context; the format phase of the transport later runs enrichWithContext under
the state then ambient (stAtFormat). stAtCall is unused by the source code
on this path, which is exactly the point under study. -/
def centralLokiRecord (stAtCall stAtFormat : CMState) (level message : String)
    (meta : Option String) : WinstonInfo :=
  (enrichWithContext (centralEmit level message meta) stAtFormat).1

/-! ## Console and file logger call-site enrichment
(src/logger/console-logger.ts, src/logger/file-logger.ts) -/

/-- An optional string under JavaScript truthiness, kept whole as its
character list (the userId interpolation of the console Context line). -/
def optTruthy (o : Option String) : Option (List Char) :=
  match o with
  | some s => if s = "" then none else some s.toList
  | none => none

/-- An optional string under JavaScript truthiness, cut to its first 8
characters as substring(0, 8) does in the console Context line. -/
def optTruthyTake8 (o : Option String) : Option (List Char) :=
  match o with
  | some s => if s = "" then none else some (s.toList.take 8)
  | none => none

/-- The context-derived content of one ConsoleLogger.log output line:
the trace tag (first 8 characters of the trace id when truthy), whether
the Context line is printed (userId or requestId truthy), and the
userId/requestId/sessionId pieces it shows. Timestamp, colors, meta and
error serialization and the stream write are external formatting and
omitted. -/
structure ConsoleLine where
  level : String
  message : String
  traceTag : List Char
  contextShown : Bool
  userIdShown : Option (List Char)
  requestIdShown : Option (List Char)
  sessionIdShown : Option (List Char)
deriving DecidableEq, Repr

/-- The console output line as a pure function of one context snapshot,
following the body of ConsoleLogger.log. -/
def consoleLineOf (c : LogContext) (level message : String) : ConsoleLine :=
  let shown := truthy c.userId || truthy c.requestId
  ⟨level, message,
    (if c.traceId = "" then [] else c.traceId.toList.take 8),
    shown,
    (if shown then optTruthy c.userId else none),
    (if shown then optTruthyTake8 c.requestId else none),
    (if shown then optTruthyTake8 c.sessionId else none)⟩

/-- ConsoleLogger.log: every leveled method calls it synchronously and its
first statement reads contextManager.getContext(); the line is built and
written within the call, with no deferred phase. -/
def consoleLog (st : CMState) (level message : String) : ConsoleLine × CMState :=
  let r := ContextManager.getContext st
  (consoleLineOf r.1 level message, r.2)

/-- The log data built by FileLogger.enrichLogData: caller meta merged with
the traceId, userId, requestId, sessionId and correlationId of the ambient
context (spanId is not copied by the source). -/
structure FileLogData where
  meta : Option String
  traceId : String
  userId : Option String
  requestId : Option String
  sessionId : Option String
  correlationId : Option String
deriving DecidableEq, Repr

/-- FileLogger.enrichLogData: runs synchronously inside every leveled
method, reading contextManager.getContext() at that moment and copying the
context fields into the outgoing log data. -/
def enrichLogData (st : CMState) (meta : Option String) : FileLogData × CMState :=
  let r := ContextManager.getContext st
  (⟨meta, r.1.traceId, r.1.userId, r.1.requestId, r.1.sessionId, r.1.correlationId⟩, r.2)

/-- A FileLogger leveled call followed by the winston file transport: the
enrichment runs in the call phase (ambient state stAtCall); the transport
phase only receives the already-built (message, logData) pair and reads no
context, so the state ambient at transport time (stAtTransport) cannot
influence the record. -/
def fileLoggerRecord (stAtCall stAtTransport : CMState) (message : String)
    (meta : Option String) : String × FileLogData :=
  (message, (enrichLogData stAtCall meta).1)

/-! ## Health check (src/utils/health-check.ts) -/

inductive HealthStatus where
  | healthy | degraded | unhealthy
deriving DecidableEq, Repr

/-- One sub-check result: a status plus an opaque details payload. -/
structure SubCheck where
  status : HealthStatus
  details : Option String
deriving DecidableEq, Repr

/-- The health check result; timestamp and uptime (external clock reads)
are omitted. -/
structure HealthCheckResult where
  status : HealthStatus
  loggerCheck : SubCheck
  memoryCheck : SubCheck
  transportCheck : SubCheck
deriving DecidableEq, Repr

/-- performHealthCheck status aggregation: overall status starts healthy,
becomes unhealthy when any of the logger, memory, transport sub-statuses
is unhealthy, else degraded when any is degraded. The sub-checks
themselves (process memory, the stubbed transport probe) are inputs. -/
def performHealthCheck (loggerCheck memoryCheck transportCheck : SubCheck) :
    HealthCheckResult :=
  let allStatuses := [loggerCheck.status, memoryCheck.status, transportCheck.status]
  let overallStatus :=
    if allStatuses.contains HealthStatus.unhealthy then HealthStatus.unhealthy
    else if allStatuses.contains HealthStatus.degraded then HealthStatus.degraded
    else HealthStatus.healthy
  ⟨overallStatus, loggerCheck, memoryCheck, transportCheck⟩

/-! ## Lemmas and claim theorems -/

lemma isObjectLike_sanitizeData (v : JVal) (fields : List String) :
    isObjectLike (sanitizeData v fields) = isObjectLike v := by
  cases v <;> try rfl
  case objCons k val r =>
    simp only [sanitizeData]
    split
    · rfl
    · split <;> rfl

lemma allRedacted_of_not_objectLike (v : JVal) (fields : List String)
    (h : isObjectLike v = false) : allRedacted v fields = true := by
  cases v <;> simp_all [isObjectLike, allRedacted]

lemma sanitizeData_sanitizeData (x : JVal) (fields : List String) :
    sanitizeData (sanitizeData x fields) fields = sanitizeData x fields := by
  induction x with
  | jstr s => rfl
  | jnum n => rfl
  | jbool b => rfl
  | jnull => rfl
  | arrNil => rfl
  | arrCons h t ihh iht => simp [sanitizeData, ihh, iht]
  | objNil => rfl
  | objCons k v r ihv ihr =>
      by_cases hk : matchesSensitive fields k
      · simp [sanitizeData, hk, ihr]
      · by_cases hv : isObjectLike v
        · simp [sanitizeData, hk, hv, isObjectLike_sanitizeData, ihv, ihr]
        · simp [sanitizeData, hk, hv, ihr]

lemma allRedacted_sanitizeData (x : JVal) (fields : List String) :
    allRedacted (sanitizeData x fields) fields = true := by
  induction x with
  | jstr s => rfl
  | jnum n => rfl
  | jbool b => rfl
  | jnull => rfl
  | arrNil => rfl
  | arrCons h t ihh iht => simp [sanitizeData, allRedacted, ihh, iht]
  | objNil => rfl
  | objCons k v r ihv ihr =>
      by_cases hk : matchesSensitive fields k
      · simp [sanitizeData, hk, allRedacted, ihr]
      · by_cases hv : isObjectLike v
        · simp [sanitizeData, hk, hv, allRedacted, ihv, ihr]
        · simp [sanitizeData, hk, hv, allRedacted, ihr,
            allRedacted_of_not_objectLike v fields (by simp [hv])]

/-- Claim C4: sanitizeData is idempotent; every key that case-insensitively
contains a sensitive fragment maps to the fixed marker at every nesting
depth of the output; scalars and null pass through unchanged; and the spec
scenario sanitizeData with user password and email behaves as stated.
Purity (never mutating the input) holds by construction: the embedding is a
pure function returning a new value. -/
theorem sanitizeData_idempotent_pure_redacts :
    (∀ x fields, sanitizeData (sanitizeData x fields) fields = sanitizeData x fields)
    ∧ (∀ x fields, allRedacted (sanitizeData x fields) fields = true)
    ∧ (∀ s fields, sanitizeData (JVal.jstr s) fields = JVal.jstr s)
    ∧ (∀ n fields, sanitizeData (JVal.jnum n) fields = JVal.jnum n)
    ∧ (∀ b fields, sanitizeData (JVal.jbool b) fields = JVal.jbool b)
    ∧ (∀ fields, sanitizeData JVal.jnull fields = JVal.jnull)
    ∧ sanitizeData
        (JVal.objCons "user"
          (JVal.objCons "password" (JVal.jstr "p")
            (JVal.objCons "email" (JVal.jstr "e@x.com") JVal.objNil))
          JVal.objNil) ["password"]
      = JVal.objCons "user"
          (JVal.objCons "password" (JVal.jstr "[REDACTED]")
            (JVal.objCons "email" (JVal.jstr "e@x.com") JVal.objNil))
          JVal.objNil := by
  refine ⟨sanitizeData_sanitizeData, allRedacted_sanitizeData,
    fun s fields => rfl, fun n fields => rfl, fun b fields => rfl,
    fun fields => rfl, by decide⟩

lemma uuidv4_ne_empty (n : Nat) : uuidv4 n ≠ "" := by
  intro h
  have h2 := congrArg String.data h
  simp [uuidv4] at h2

lemma uuidv4_injective : Function.Injective uuidv4 := by
  intro a b h
  have h2 := congrArg (fun s => s.data.length) h
  simpa [uuidv4] using h2

lemma jsSliceLast_eq_rtake (n : Nat) (l : List α) (h : 1 ≤ n) :
    jsSliceLast n l = l.rtake n := by
  have : n ≠ 0 := by omega
  simp [jsSliceLast, List.rtake, this]

lemma rtake_of_length_le (n : Nat) (l : List α) (h : l.length ≤ n) :
    l.rtake n = l := by
  simp [List.rtake, Nat.sub_eq_zero_of_le h]

lemma length_rtake (n : Nat) (l : List α) :
    (l.rtake n).length = min n l.length := by
  simp [List.rtake]
  omega

lemma map_rtake (f : α → β) (n : Nat) (l : List α) :
    (l.rtake n).map f = (l.map f).rtake n := by
  simp [List.rtake, List.map_drop]

lemma rtake_append_rtake (n : Nat) (l ms : List α) :
    (l.rtake n ++ ms).rtake n = (l ++ ms).rtake n := by
  simp only [List.rtake_eq_reverse_take_reverse, List.reverse_append, List.reverse_reverse]
  rw [List.take_append_eq_append_take, List.take_append_eq_append_take, List.take_take]
  have hmin : min (n - ms.reverse.length) n = n - ms.reverse.length :=
    Nat.min_eq_left (by omega)
  rw [hmin]

lemma addLog_step (lg : InMemoryLogger) (st : CMState) (level msg : String)
    (meta : Option String) (err : Option ErrInfo)
    (h1 : 1 ≤ lg.maxSize) (h2 : lg.logs.length ≤ lg.maxSize) :
    (InMemoryLogger.addLog lg st level msg meta err).1.logs
      = (lg.logs ++ [mkEntry level msg meta (ContextManager.getContext st).1 err]).rtake lg.maxSize
    ∧ (InMemoryLogger.addLog lg st level msg meta err).1.maxSize = lg.maxSize := by
  constructor
  · simp only [InMemoryLogger.addLog]
    by_cases hlen : lg.maxSize < lg.logs.length + 1
    · simp [hlen, jsSliceLast_eq_rtake _ _ h1]
    · have hle : lg.logs.length + 1 ≤ lg.maxSize := by omega
      simp [hlen]
      rw [rtake_of_length_le]
      simp
      omega
  · simp [InMemoryLogger.addLog]

lemma addMany_messages : ∀ (msgs : List String) (lg : InMemoryLogger) (st : CMState),
    1 ≤ lg.maxSize → lg.logs.length ≤ lg.maxSize →
    ((addMany lg st msgs).1.logs.map LogEntry.message
        = ((lg.logs.map LogEntry.message) ++ msgs).rtake lg.maxSize)
    ∧ (addMany lg st msgs).1.maxSize = lg.maxSize := by
  intro msgs
  induction msgs with
  | nil =>
      intro lg st h1 h2
      constructor
      · simp [addMany]
        rw [rtake_of_length_le]
        simpa using h2
      · simp [addMany]
  | cons m ms ih =>
      intro lg st h1 h2
      have hstep := addLog_step lg st "info" m none none h1 h2
      have hunf : addMany lg st (m :: ms)
          = addMany (InMemoryLogger.addLog lg st "info" m none none).1
              (InMemoryLogger.addLog lg st "info" m none none).2 ms := by
        simp [addMany]
      set lg1 := (InMemoryLogger.addLog lg st "info" m none none).1 with hlg1
      have hmax : lg1.maxSize = lg.maxSize := hstep.2
      have hlen1 : lg1.logs.length ≤ lg1.maxSize := by
        rw [hstep.1, hmax, length_rtake]
        omega
      have hih := ih lg1 (InMemoryLogger.addLog lg st "info" m none none).2
        (by rw [hmax]; exact h1) hlen1
      rw [hunf]
      refine ⟨?_, by rw [hih.2, hmax]⟩
      rw [hih.1, hmax, hstep.1, map_rtake, rtake_append_rtake]
      simp [mkEntry]

lemma addLog_getLast (lg : InMemoryLogger) (st : CMState) (level msg : String)
    (meta : Option String) (err : Option ErrInfo) :
    ((InMemoryLogger.addLog lg st level msg meta err).1.logs).getLast?
      = some (mkEntry level msg meta (ContextManager.getContext st).1 err) := by
  simp only [InMemoryLogger.addLog]
  by_cases hlen : lg.maxSize < lg.logs.length + 1
  · simp only [List.length_append, List.length_singleton, hlen, if_true, jsSliceLast]
    by_cases hz : lg.maxSize = 0
    · simp [hz]
    · have hd : lg.logs.length + 1 - lg.maxSize ≤ lg.logs.length := by omega
      simp only [hz, if_false, List.length_append, List.length_singleton]
      rw [List.drop_append_eq_append_drop]
      have : lg.logs.length + 1 - lg.maxSize - lg.logs.length = 0 := by omega
      rw [this]
      simp
  · simp [hlen]

/-- Claim C5 counterexample at the explicit input maxSize = 0: appending
N = 1 > 0 records leaves one stored record, not maxSize = 0, because
slice(-0) is slice(0) and keeps the whole array. -/
theorem inMemoryLogger_bound_zero_counterexample :
    ((addMany ⟨0, []⟩ ⟨none, 0⟩ ["a"]).1.getLogs).length = 1
    ∧ ((addMany ⟨0, []⟩ ⟨none, 0⟩ ["a"]).1.getLogs).length ≠ 0 := by
  constructor
  · rfl
  · decide

/-- Claim C5 (amended to require maxSize at least 1): after appending
more than maxSize records, getLogs holds exactly maxSize records, and they
are exactly the most recent maxSize messages in insertion order (oldest
discarded first). -/
theorem inMemoryLogger_fifo_bound (maxSize : Nat) (msgs : List String) (st : CMState)
    (h1 : 1 ≤ maxSize) (h2 : maxSize < msgs.length) :
    ((addMany ⟨maxSize, []⟩ st msgs).1.getLogs).length = maxSize
    ∧ ((addMany ⟨maxSize, []⟩ st msgs).1.getLogs).map LogEntry.message
        = msgs.drop (msgs.length - maxSize) := by
  have h := (addMany_messages msgs ⟨maxSize, []⟩ st h1 (by simp)).1
  simp only [List.map_nil, List.nil_append] at h
  have hlen := congrArg List.length h
  rw [List.length_map, length_rtake] at hlen
  constructor
  · show (addMany ⟨maxSize, []⟩ st msgs).1.logs.length = maxSize
    rw [hlen]
    omega
  · show (addMany ⟨maxSize, []⟩ st msgs).1.logs.map LogEntry.message
        = msgs.drop (msgs.length - maxSize)
    rw [h, List.rtake]

/-- Witness for the amended C5 theorem at the spec scenario: maxSize 3,
messages a, b, c, d, retained records exactly b, c, d in order. -/
theorem inMemoryLogger_fifo_bound_witness :
    1 ≤ 3 ∧ 3 < (["a", "b", "c", "d"] : List String).length
    ∧ ((addMany ⟨3, []⟩ ⟨none, 0⟩ ["a", "b", "c", "d"]).1.getLogs).length = 3
    ∧ ((addMany ⟨3, []⟩ ⟨none, 0⟩ ["a", "b", "c", "d"]).1.getLogs).map LogEntry.message
        = ["b", "c", "d"] := by
  have h := inMemoryLogger_fifo_bound 3 ["a", "b", "c", "d"] ⟨none, 0⟩
    (by decide) (by decide)
  refine ⟨by decide, by decide, h.1, ?_⟩
  rw [h.2]
  decide

/-- Claim C6: outside any established scope the context store still
succeeds everywhere: getContext synthesizes a default whose trace id is the
fresh non-empty uuid (span id and request id are synthesized too), get
returns it, and a log call (addLog) emits a record carrying that fresh
non-empty trace id. All operations are total by construction, matching the
no-throw contract. -/
theorem contextManager_no_scope_defaults :
    (∀ n, ((ContextManager.getContext ⟨none, n⟩).1).traceId = uuidv4 n
      ∧ ((ContextManager.getContext ⟨none, n⟩).1).traceId ≠ ""
      ∧ ((ContextManager.getContext ⟨none, n⟩).1).spanId = some (uuidv4 (n + 1))
      ∧ ((ContextManager.getContext ⟨none, n⟩).1).requestId = some (uuidv4 (n + 2)))
    ∧ (∀ n, (ContextManager.get ⟨none, n⟩ CtxField.traceId).1 = some (uuidv4 n))
    ∧ (∀ n lg level msg meta err,
        ((InMemoryLogger.addLog lg ⟨none, n⟩ level msg meta err).1.logs).getLast?.map
            (fun en => en.context.traceId) = some (uuidv4 n)
        ∧ uuidv4 n ≠ "") := by
  refine ⟨?_, ?_, ?_⟩
  · intro n
    refine ⟨?_, ?_, ?_, ?_⟩ <;>
      simp [ContextManager.getContext, initContext, emptySeed, strOrFresh, uuidv4_ne_empty]
  · intro n
    simp [ContextManager.get, ContextManager.getContext, initContext, emptySeed,
      strOrFresh, getField]
  · intro n lg level msg meta err
    refine ⟨?_, uuidv4_ne_empty n⟩
    rw [addLog_getLast]
    simp [mkEntry, snapshotOf, ContextManager.getContext, initContext, emptySeed, strOrFresh]

/-- Claim C10: the default synthesized outside any scope is not installed:
two successive getContext calls outside a scope return distinct fresh trace
ids; a set outside a scope only advances the uuid counter (the mutation
lands on the discarded default, the store stays empty); and a get after
such a set observes nothing of the written value. -/
theorem contextManager_default_not_installed :
    (∀ n, ((ContextManager.getContext ⟨none, n⟩).1).traceId
        ≠ ((ContextManager.getContext (ContextManager.getContext ⟨none, n⟩).2).1).traceId)
    ∧ (∀ n f v, ContextManager.set ⟨none, n⟩ f v = ⟨none, n + 3⟩)
    ∧ (∀ n v, (ContextManager.get (ContextManager.set ⟨none, n⟩ CtxField.userId v)
        CtxField.userId).1 = none) := by
  refine ⟨?_, ?_, ?_⟩
  · intro n
    simp only [ContextManager.getContext, initContext, emptySeed, strOrFresh]
    intro h
    have := uuidv4_injective h
    omega
  · intro n f v
    simp [ContextManager.set, ContextManager.getContext, initContext, emptySeed, strOrFresh]
  · intro n v
    simp [ContextManager.get, ContextManager.set, ContextManager.getContext,
      initContext, emptySeed, strOrFresh, getField]

lemma getField_setField (c : LogContext) (g : CtxField) (v : String) (f : CtxField) :
    getField (setField c g v) f = if g = f then some v else getField c f := by
  cases g <;> cases f <;> simp [getField, setField]

lemma applyWrites_append (c : LogContext) (ws : List (CtxField × String))
    (f : CtxField) (v : String) :
    applyWrites c (ws ++ [(f, v)]) = setField (applyWrites c ws) f v := by
  simp [applyWrites]

lemma runTrace_congr (s : Nat) : ∀ (evs : List Ev) (sc1 sc2 : Nat → LogContext),
    sc1 s = sc2 s →
    (runTrace sc1 evs).filter (fun r => r.1 = s)
      = (runTrace sc2 evs).filter (fun r => r.1 = s) := by
  intro evs
  induction evs with
  | nil => intro sc1 sc2 h; rfl
  | cons e rest ih =>
      intro sc1 sc2 h
      match e with
      | ⟨t, .write f v⟩ =>
          simp only [runTrace]
          apply ih
          by_cases hts : s = t
          · subst hts
            simp [updScope, h]
          · simp [updScope, hts, h]
      | ⟨t, .emit m⟩ =>
          simp only [runTrace, List.filter_cons]
          by_cases hts : t = s
          · subst hts
            simp [h, ih sc1 sc2 h]
          · simp [hts, ih sc1 sc2 h]

lemma runTrace_filter (s : Nat) : ∀ (evs : List Ev) (scopes : Nat → LogContext),
    (runTrace scopes evs).filter (fun r => r.1 = s)
      = runTrace scopes (evs.filter (fun e => e.sid = s)) := by
  intro evs
  induction evs with
  | nil => intro scopes; rfl
  | cons e rest ih =>
      intro scopes
      match e with
      | ⟨t, .write f v⟩ =>
          by_cases hts : t = s
          · subst hts
            simp only [List.filter_cons, decide_eq_true_eq, if_pos rfl]
            simp only [runTrace]
            exact ih _
          · have hne : ¬ s = t := fun hh => hts hh.symm
            simp only [runTrace, List.filter_cons, decide_eq_true_eq, hts, if_false]
            rw [runTrace_congr s rest (updScope scopes t (setField (scopes t) f v)) scopes
              (by simp [updScope, hne])]
            exact ih scopes
      | ⟨t, .emit m⟩ =>
          by_cases hts : t = s
          · subst hts
            simp only [List.filter_cons, decide_eq_true_eq, if_pos rfl]
            simp only [runTrace, List.filter_cons, decide_eq_true_eq, if_pos rfl]
            rw [ih scopes]
            simp [runTrace]
          · simp only [runTrace, List.filter_cons, decide_eq_true_eq, hts, if_false]
            exact ih scopes

lemma runTrace_single_scope (s : Nat) (c0 : LogContext) :
    ∀ (chain : List Ev) (scopes : Nat → LogContext) (seen : List (CtxField × String)),
    (∀ e ∈ chain, e.sid = s) → scopes s = applyWrites c0 seen →
    runTrace scopes chain = specRecordsAux s c0 seen chain := by
  intro chain
  induction chain with
  | nil => intro scopes seen hall hsc; rfl
  | cons e rest ih =>
      intro scopes seen hall hsc
      have hrest : ∀ x ∈ rest, x.sid = s := fun x hx => hall x (List.mem_cons_of_mem _ hx)
      have hsid : e.sid = s := hall e (List.mem_cons_self _ _)
      match e, hsid with
      | ⟨_, .write f v⟩, rfl =>
          simp only [runTrace, specRecordsAux]
          apply ih _ _ hrest
          simp [updScope, hsc, applyWrites_append]
      | ⟨_, .emit m⟩, rfl =>
          simp only [runTrace, specRecordsAux, hsc]
          rw [ih scopes seen hrest hsc]

lemma getField_applyWrites : ∀ (ws : List (CtxField × String)) (c : LogContext) (f : CtxField),
    getField (applyWrites c ws) f
      = match lastWrite ws f with
        | some v => some v
        | none => getField c f := by
  intro ws
  induction ws with
  | nil => intro c f; rfl
  | cons p rest ih =>
      intro c f
      match p with
      | (g, v) =>
          simp only [applyWrites, List.foldl_cons]
          have h2 := ih (setField c g v) f
          simp only [applyWrites] at h2
          rw [h2, getField_setField]
          simp only [lastWrite]
          cases hlw : lastWrite rest f
          · by_cases hgf : g = f <;> simp [hgf]
          · simp

/-- Claim C1: in any interleaved trace of established scopes, the records
emitted by one scope are exactly those computed from the initial context
of that scope and its own earlier writes alone (siblings never contribute);
within the chain, each field of a snapshot is the most recent write to that
field made earlier in the chain, or the initial value when the chain has
not written it; and in the concrete spec scenario two emissions of a scope
holding traceId T1 and userId U1 both carry T1 and U1 even with a sibling
write of a sibling scope interleaved between them. -/
theorem contextPropagation_recent_write_isolated :
    (∀ (scopes : Nat → LogContext) (evs : List Ev) (s : Nat),
      (runTrace scopes evs).filter (fun r => r.1 = s)
        = specRecords s (scopes s) (evs.filter (fun e => e.sid = s)))
    ∧ (∀ (ws : List (CtxField × String)) (c : LogContext) (f : CtxField),
      getField (applyWrites c ws) f
        = match lastWrite ws f with
          | some v => some v
          | none => getField c f)
    ∧ ((runTrace
          (fun i => if i = 0 then ⟨"T1", none, some "U1", none, none, none, none⟩
            else ⟨"T2", none, none, none, none, none, none⟩)
          [⟨0, .emit "a"⟩, ⟨1, .write .userId "EVIL"⟩, ⟨0, .emit "b"⟩]).map
            (fun r => (r.1, r.2.traceId, r.2.userId)))
        = [(0, "T1", some "U1"), (0, "T1", some "U1")] := by
  refine ⟨?_, getField_applyWrites, by decide⟩
  intro scopes evs s
  rw [runTrace_filter]
  exact runTrace_single_scope s (scopes s)
    (evs.filter (fun e => e.sid = s)) scopes []
    (fun e he => by
      have := List.of_mem_filter he
      simpa using this)
    rfl

lemma execute_closed_fail_stay (cfg : CBConfig) (cb : CircuitBreaker) (now : Nat) (e : String)
    (h : cb.state = .closed) (hlt : cb.failureCount + 1 < cfg.failureThreshold) :
    CircuitBreaker.execute cfg cb now (Except.error e : Except String Unit)
      = ⟨.fnError e, ⟨cb.failureCount + 1, some now, .closed⟩, true, []⟩ := by
  have hne : ¬ cfg.failureThreshold ≤ cb.failureCount + 1 := by omega
  simp [CircuitBreaker.execute, h, hne]

lemma execute_closed_fail_trip (cfg : CBConfig) (cb : CircuitBreaker) (now : Nat) (e : String)
    (h : cb.state = .closed) (hge : cfg.failureThreshold ≤ cb.failureCount + 1) :
    CircuitBreaker.execute cfg cb now (Except.error e : Except String Unit)
      = ⟨.fnError e, ⟨cb.failureCount + 1, some now, .opened⟩, true,
        [LogMsg.info "Circuit breaker state changed",
         LogMsg.error "Circuit breaker opened due to repeated failures"]⟩ := by
  simp [CircuitBreaker.execute, setState, h, hge]

lemma execute_open_fastfail {α : Type} (cfg : CBConfig) (cb : CircuitBreaker) (now : Nat)
    (res : Except String α) (h : cb.state = .opened)
    (hq : ∀ t, cb.lastFailureTime = some t → t = 0 ∨ now - t ≤ cfg.resetTimeoutMs) :
    CircuitBreaker.execute cfg cb now res = ⟨.circuitOpenError, cb, false, []⟩ := by
  have helapsed : (match cb.lastFailureTime with
      | some t => decide (0 < t) && decide (cfg.resetTimeoutMs < now - t)
      | none => false) = false := by
    cases hl : cb.lastFailureTime with
    | none => rfl
    | some t =>
        rcases hq t hl with h0 | hle
        · simp [h0]
        · have hnl : ¬ (cfg.resetTimeoutMs < now - t) := by omega
          simp [hnl]
  simp [CircuitBreaker.execute, helapsed, h]

lemma execute_trial_success {α : Type} (cfg : CBConfig) (cb : CircuitBreaker) (now t : Nat)
    (v : α) (h : cb.state = .opened) (hl : cb.lastFailureTime = some t)
    (h0 : 0 < t) (he : cfg.resetTimeoutMs < now - t) :
    CircuitBreaker.execute cfg cb now (Except.ok v : Except String α)
      = ⟨.ok v, ⟨0, some t, .closed⟩, true,
        [LogMsg.info "Circuit breaker state changed",
         LogMsg.info "Circuit breaker state changed"]⟩ := by
  simp [CircuitBreaker.execute, setState, h, hl, h0, he]

lemma execute_trial_fail (cfg : CBConfig) (cb : CircuitBreaker) (now t : Nat) (e : String)
    (h : cb.state = .opened) (hl : cb.lastFailureTime = some t)
    (h0 : 0 < t) (he : cfg.resetTimeoutMs < now - t)
    (hth : cfg.failureThreshold ≤ cb.failureCount + 1) :
    CircuitBreaker.execute cfg cb now (Except.error e : Except String Unit)
      = ⟨.fnError e, ⟨cb.failureCount + 1, some now, .opened⟩, true,
        [LogMsg.info "Circuit breaker state changed",
         LogMsg.info "Circuit breaker state changed",
         LogMsg.error "Circuit breaker opened due to repeated failures"]⟩ := by
  simp [CircuitBreaker.execute, setState, h, hl, h0, he, hth]

lemma failRun_aux : ∀ (ts : List Nat) (cfg : CBConfig) (cb : CircuitBreaker) (b : Bool),
    cb.state = .closed → cb.failureCount + ts.length = cfg.failureThreshold → ts ≠ [] →
    (ts.foldl (failStep cfg) (cb, b)).1.state = .opened
    ∧ (ts.foldl (failStep cfg) (cb, b)).2 = b := by
  intro ts
  induction ts with
  | nil => intro _ _ _ _ _ hne; exact absurd rfl hne
  | cons t rest ih =>
      intro cfg cb b hst hsum _
      cases hr : rest with
      | nil =>
          subst hr
          have hge : cfg.failureThreshold ≤ cb.failureCount + 1 := by
            simp at hsum
            omega
          simp [failStep, execute_closed_fail_trip cfg cb t "boom" hst hge]
      | cons t2 rest2 =>
          subst hr
          have hlt : cb.failureCount + 1 < cfg.failureThreshold := by
            simp at hsum
            omega
          have hstep : List.foldl (failStep cfg) (cb, b) (t :: t2 :: rest2)
              = List.foldl (failStep cfg)
                  (⟨cb.failureCount + 1, some t, .closed⟩, b && true) (t2 :: rest2) := by
            simp [List.foldl_cons, failStep, execute_closed_fail_stay cfg cb t "boom" hst hlt]
          rw [hstep]
          have := ih cfg ⟨cb.failureCount + 1, some t, .closed⟩ (b && true) rfl
            (by simp at hsum ⊢; omega) (by simp)
          simpa using this

lemma retryAux_succeeds {α : Type} : ∀ (k : Nat) (fn : Nat → Except String α)
    (attempt remaining : Nat) (v : α),
    k ≤ remaining →
    (∀ i, i < k → ∃ e, fn (attempt + i) = Except.error e) →
    fn (attempt + k) = Except.ok v →
    retryAux fn attempt remaining
      = (.ok v, k + 1, List.replicate k (LogMsg.debug "Retry attempt")) := by
  intro k
  induction k with
  | zero =>
      intro fn attempt remaining v _ _ hsucc
      simp only [Nat.add_zero] at hsucc
      cases remaining <;> simp [retryAux, hsucc]
  | succ k ih =>
      intro fn attempt remaining v hle hfail hsucc
      obtain ⟨e, he⟩ := hfail 0 (by omega)
      simp only [Nat.add_zero] at he
      cases remaining with
      | zero => omega
      | succ r =>
          have hrec := ih fn (attempt + 1) r v (by omega)
            (fun i hi => by
              obtain ⟨e2, he2⟩ := hfail (i + 1) (by omega)
              exact ⟨e2, by rw [← he2]; congr 1; omega⟩)
            (by rw [← hsucc]; congr 1; omega)
          simp [retryAux, he, hrec, List.replicate_succ]

lemma retryAux_all_fail {α : Type} : ∀ (remaining : Nat) (fn : Nat → Except String α)
    (attempt : Nat) (es : Nat → String),
    (∀ i, i ≤ remaining → fn (attempt + i) = Except.error (es (attempt + i))) →
    retryAux fn attempt remaining
      = (.error (es (attempt + remaining)), remaining + 1,
          List.replicate remaining (LogMsg.debug "Retry attempt")) := by
  intro remaining
  induction remaining with
  | zero =>
      intro fn attempt es h
      have h0 := h 0 (by omega)
      simp only [Nat.add_zero] at h0
      simp [retryAux, h0]
  | succ r ih =>
      intro fn attempt es h
      have h0 := h 0 (by omega)
      simp only [Nat.add_zero] at h0
      have hrec := ih fn (attempt + 1) es
        (fun i hi => by
          have h2 := h (i + 1) (by omega)
          have harith2 : attempt + 1 + i = attempt + (i + 1) := by omega
          rw [harith2]
          exact h2)
      have harith : attempt + 1 + r = attempt + (r + 1) := by omega
      rw [harith] at hrec
      simp [retryAux, h0, hrec, List.replicate_succ]

/-- Claim C3: an operation failing exactly k < maxRetries times then
succeeding makes the wrapper return that success after exactly k + 1
invocations; an always-failing operation is invoked exactly maxRetries + 1
times and the error of the final attempt is re-raised. -/
theorem retryWithBackoff_counts :
    (∀ (α : Type) (fn : Nat → Except String α) (maxRetries k : Nat) (v : α),
      k < maxRetries →
      (∀ i, i < k → ∃ e, fn i = Except.error e) →
      fn k = Except.ok v →
      (retryWithBackoff fn maxRetries).1 = Except.ok v
        ∧ (retryWithBackoff fn maxRetries).2.1 = k + 1)
    ∧ (∀ (α : Type) (fn : Nat → Except String α) (maxRetries : Nat) (es : Nat → String),
      (∀ i, i ≤ maxRetries → fn i = Except.error (es i)) →
      (retryWithBackoff fn maxRetries).1 = Except.error (es maxRetries)
        ∧ (retryWithBackoff fn maxRetries).2.1 = maxRetries + 1) := by
  constructor
  · intro α fn maxRetries k v hk hfail hsucc
    have h := retryAux_succeeds k fn 0 maxRetries v (by omega)
      (fun i hi => by simpa using hfail i hi) (by simpa using hsucc)
    simp [retryWithBackoff, h]
  · intro α fn maxRetries es h
    have h2 := retryAux_all_fail maxRetries fn 0 es (fun i hi => by simpa using h i hi)
    simp only [Nat.zero_add] at h2
    simp [retryWithBackoff, h2]

/-- Witness for C3 at concrete inputs: two failures then success with
maxRetries 3 returns the success in 3 invocations; an always-failing
operation with maxRetries 2 is invoked 3 times and re-raises its error. -/
theorem retryWithBackoff_counts_witness :
    (retryWithBackoff (fun i => if i < 2 then Except.error "boom" else Except.ok 7) 3).1
        = Except.ok 7
    ∧ (retryWithBackoff (fun i => if i < 2 then Except.error "boom" else Except.ok 7) 3).2.1 = 3
    ∧ (retryWithBackoff (fun _ => (Except.error "fail" : Except String Nat)) 2).1
        = Except.error "fail"
    ∧ (retryWithBackoff (fun _ => (Except.error "fail" : Except String Nat)) 2).2.1 = 3 := by
  have h1 := retryWithBackoff_counts.1 Nat
    (fun i => if i < 2 then Except.error "boom" else Except.ok 7) 3 2 7
    (by omega) (fun i hi => ⟨"boom", by simp [hi]⟩) (by simp)
  have h2 := retryWithBackoff_counts.2 Nat
    (fun _ => Except.error "fail") 2 (fun _ => "fail") (fun i _ => rfl)
  exact ⟨h1.1, h1.2, h2.1, h2.2⟩

/-- Claim C2: from a fresh breaker, failureThreshold consecutive failing
calls all invoke the wrapped function and leave the breaker open; while
open and before the reset timeout has elapsed (or with the lastFailureTime
falsy quirk), a call rejects immediately without invoking and without
changing the breaker; once the timeout has elapsed the single trial call is
let through (via half-open): its success closes the breaker and zeroes the
failure counter, its failure re-opens the breaker and restarts the
cooldown clock at the current time. -/
theorem circuitBreaker_transitions :
    (∀ (cfg : CBConfig) (ts : List Nat),
      1 ≤ cfg.failureThreshold → ts.length = cfg.failureThreshold →
      (failRun cfg ⟨0, none, .closed⟩ ts).1.state = .opened
        ∧ (failRun cfg ⟨0, none, .closed⟩ ts).2 = true)
    ∧ (∀ (α : Type) (cfg : CBConfig) (cb : CircuitBreaker) (now : Nat) (res : Except String α),
      cb.state = .opened →
      (∀ t, cb.lastFailureTime = some t → t = 0 ∨ now - t ≤ cfg.resetTimeoutMs) →
      CircuitBreaker.execute cfg cb now res = ⟨.circuitOpenError, cb, false, []⟩)
    ∧ (∀ (α : Type) (cfg : CBConfig) (cb : CircuitBreaker) (now t : Nat) (v : α),
      cb.state = .opened → cb.lastFailureTime = some t → 0 < t →
      cfg.resetTimeoutMs < now - t →
      (CircuitBreaker.execute cfg cb now (Except.ok v)).invoked = true
        ∧ (CircuitBreaker.execute cfg cb now (Except.ok v)).result = .ok v
        ∧ (CircuitBreaker.execute cfg cb now (Except.ok v)).cb = ⟨0, some t, .closed⟩)
    ∧ (∀ (cfg : CBConfig) (cb : CircuitBreaker) (now t : Nat) (e : String),
      cb.state = .opened → cb.lastFailureTime = some t → 0 < t →
      cfg.resetTimeoutMs < now - t → cfg.failureThreshold ≤ cb.failureCount + 1 →
      (CircuitBreaker.execute cfg cb now (Except.error e : Except String Unit)).invoked = true
        ∧ (CircuitBreaker.execute cfg cb now (Except.error e : Except String Unit)).cb
            = ⟨cb.failureCount + 1, some now, .opened⟩) := by
  refine ⟨?_, ?_, ?_, ?_⟩
  · intro cfg ts h1 hlen
    have hne : ts ≠ [] := by
      intro hnil
      rw [hnil] at hlen
      simp at hlen
      omega
    exact failRun_aux ts cfg ⟨0, none, .closed⟩ true rfl (by simpa using hlen) hne
  · intro α cfg cb now res h hq
    exact execute_open_fastfail cfg cb now res h hq
  · intro α cfg cb now t v h hl h0 he
    rw [execute_trial_success cfg cb now t v h hl h0 he]
    exact ⟨rfl, rfl, rfl⟩
  · intro cfg cb now t e h hl h0 he hth
    rw [execute_trial_fail cfg cb now t e h hl h0 he hth]
    exact ⟨rfl, rfl⟩

/-- Witness for C2 at the spec scenario (threshold 2, reset timeout 100):
two failing calls at times 1 and 2 open the breaker with both invoked; a
call at time 50 fast-fails untouched; a trial at time 200 closes the
breaker on success with the counter zeroed, or re-opens it stamped at 200
on failure. -/
theorem circuitBreaker_transitions_witness :
    (failRun ⟨2, 100⟩ ⟨0, none, .closed⟩ [1, 2]).1.state = .opened
    ∧ (failRun ⟨2, 100⟩ ⟨0, none, .closed⟩ [1, 2]).2 = true
    ∧ CircuitBreaker.execute ⟨2, 100⟩ ⟨2, some 2, .opened⟩ 50
        (Except.error "x" : Except String Unit)
        = ⟨.circuitOpenError, ⟨2, some 2, .opened⟩, false, []⟩
    ∧ (CircuitBreaker.execute ⟨2, 100⟩ ⟨2, some 2, .opened⟩ 200
        (Except.ok 42 : Except String Nat)).cb = ⟨0, some 2, .closed⟩
    ∧ (CircuitBreaker.execute ⟨2, 100⟩ ⟨2, some 2, .opened⟩ 200
        (Except.error "y" : Except String Unit)).cb = ⟨3, some 200, .opened⟩ := by
  have h1 := circuitBreaker_transitions.1 ⟨2, 100⟩ [1, 2] (by decide) (by decide)
  have h2 := circuitBreaker_transitions.2.1 Unit ⟨2, 100⟩ ⟨2, some 2, .opened⟩ 50
    (Except.error "x") rfl (fun t ht => by simp at ht; subst ht; decide)
  have h3 := circuitBreaker_transitions.2.2.1 Nat ⟨2, 100⟩ ⟨2, some 2, .opened⟩ 200 2 42
    rfl rfl (by decide) (by decide)
  have h4 := circuitBreaker_transitions.2.2.2 ⟨2, 100⟩ ⟨2, some 2, .opened⟩ 200 2 "y"
    rfl rfl (by decide) (by decide) (by decide)
  exact ⟨h1.1, h1.2, h2, h3.2.2, h4.2⟩

/-- Claim C7 counterexample at an explicit input: a call on an already-open
breaker (threshold 2, last failure at time 1, now 2, cooldown 100 not
elapsed) raises the circuit-open error while emitting no log entry at all
during that call, so this wrapper failure is not preceded by any log
emission. -/
theorem circuitOpen_fastfail_unlogged_counterexample :
    (CircuitBreaker.execute ⟨2, 100⟩ ⟨2, some 1, .opened⟩ 2
        (Except.error "x" : Except String Unit)).result = CBResult.circuitOpenError
    ∧ (CircuitBreaker.execute ⟨2, 100⟩ ⟨2, some 1, .opened⟩ 2
        (Except.error "x" : Except String Unit)).logs = [] := by
  exact ⟨rfl, rfl⟩

/-- Claim C7 (amended): retry exhaustion emits its error log as the last
emission of the call, immediately before the error is re-raised, and the
failure that trips the breaker open logs before its error is re-raised;
but a fast-fail on an already-open breaker raises the circuit-open error
with no log emission during that call (the audit record exists only at the
open transition). -/
theorem resilience_failures_logged_amended :
    (∀ (α : Type) (fn : Nat → Except String α) (maxRetries : Nat) (es : Nat → String),
      (∀ i, i ≤ maxRetries → fn i = Except.error (es i)) →
      ((retryWithBackoff fn maxRetries).2.2).getLast?
          = some (LogMsg.error "All retry attempts failed"))
    ∧ (∀ (cfg : CBConfig) (cb : CircuitBreaker) (now : Nat) (e : String),
      cb.state = .closed → cfg.failureThreshold ≤ cb.failureCount + 1 →
      ((CircuitBreaker.execute cfg cb now (Except.error e : Except String Unit)).logs).getLast?
          = some (LogMsg.error "Circuit breaker opened due to repeated failures"))
    ∧ (∀ (α : Type) (cfg : CBConfig) (cb : CircuitBreaker) (now : Nat) (res : Except String α),
      cb.state = .opened →
      (∀ t, cb.lastFailureTime = some t → t = 0 ∨ now - t ≤ cfg.resetTimeoutMs) →
      (CircuitBreaker.execute cfg cb now res).logs = []
        ∧ (CircuitBreaker.execute cfg cb now res).result = CBResult.circuitOpenError) := by
  refine ⟨?_, ?_, ?_⟩
  · intro α fn maxRetries es h
    have h2 := retryAux_all_fail maxRetries fn 0 es (fun i hi => by simpa using h i hi)
    simp only [Nat.zero_add] at h2
    simp [retryWithBackoff, h2]
  · intro cfg cb now e h hge
    rw [execute_closed_fail_trip cfg cb now e h hge]
    rfl
  · intro α cfg cb now res h hq
    rw [execute_open_fastfail cfg cb now res h hq]
    exact ⟨rfl, rfl⟩

/-- Witness for the amended C7 theorem at concrete inputs: retry exhaustion
with maxRetries 1 ends its log trail with the retry-exhaustion error log; a
threshold-tripping failure ends its log trail with the breaker-opened error
log; the fast-fail on an open breaker emits nothing. -/
theorem resilience_failures_logged_amended_witness :
    ((retryWithBackoff (fun _ => (Except.error "fail" : Except String Nat)) 1).2.2).getLast?
        = some (LogMsg.error "All retry attempts failed")
    ∧ ((CircuitBreaker.execute ⟨1, 100⟩ ⟨0, none, .closed⟩ 5
        (Except.error "e" : Except String Unit)).logs).getLast?
        = some (LogMsg.error "Circuit breaker opened due to repeated failures")
    ∧ (CircuitBreaker.execute ⟨2, 100⟩ ⟨2, some 3, .opened⟩ 4
        (Except.error "x" : Except String Unit)).logs = [] := by
  refine ⟨resilience_failures_logged_amended.1 Nat _ 1 (fun _ => "fail") (fun i _ => rfl),
    resilience_failures_logged_amended.2.1 ⟨1, 100⟩ ⟨0, none, .closed⟩ 5 "e" rfl (by decide),
    (resilience_failures_logged_amended.2.2 Unit ⟨2, 100⟩ ⟨2, some 3, .opened⟩ 4
      (Except.error "x") rfl (fun t ht => by simp at ht; subst ht; decide)).1⟩

/-- Claim C8 counterexample at an explicit input: with context A (trace id
TA) ambient at the leveled call and context B (trace id TB) ambient when
the Loki transport formats the record, the CentralLogger record carries TB,
the format-time trace id, not the call-site trace id TA — so the claim
that every variant snapshots the context at the call site fails. -/
theorem centralLogger_format_time_counterexample :
    (centralLokiRecord
        ⟨some ⟨"TA", none, none, none, none, none, none⟩, 0⟩
        ⟨some ⟨"TB", none, none, none, none, none, none⟩, 0⟩
        "info" "m" none).traceId = some "TB"
    ∧ (centralLokiRecord
        ⟨some ⟨"TA", none, none, none, none, none, none⟩, 0⟩
        ⟨some ⟨"TB", none, none, none, none, none, none⟩, 0⟩
        "info" "m" none).traceId ≠ some "TA" := by
  constructor
  · rfl
  · decide

/-- Claim C8 (amended): the console, file and in-memory loggers read the
ambient context synchronously inside the leveled call, so their records
snapshot the call-site context — the in-memory record copies the context
read at the call, the console line is the pure image of the context read
at the call, and the file-logger record is built from the call-site
context and is independent of the state ambient at transport time; but
the CentralLogger Loki path reads the context inside the transport format
step, so its record carries the format-time context and ignores the
call-site state entirely. -/
theorem enrichment_read_time_amended :
    (∀ (lg : InMemoryLogger) (st : CMState) (level msg : String)
      (meta : Option String) (err : Option ErrInfo),
      ((InMemoryLogger.addLog lg st level msg meta err).1.logs).getLast?
        = some (mkEntry level msg meta (ContextManager.getContext st).1 err))
    ∧ (∀ (st : CMState) (level msg : String),
      (consoleLog st level msg).1
        = consoleLineOf (ContextManager.getContext st).1 level msg)
    ∧ (∀ (stAtCall stAtTransport : CMState) (msg : String) (meta : Option String),
      (fileLoggerRecord stAtCall stAtTransport msg meta).2.traceId
        = ((ContextManager.getContext stAtCall).1).traceId)
    ∧ (∀ (stAtCall st1 st2 : CMState) (msg : String) (meta : Option String),
      fileLoggerRecord stAtCall st1 msg meta = fileLoggerRecord stAtCall st2 msg meta)
    ∧ (∀ (stAtCall stAtFormat : CMState) (level msg : String) (meta : Option String),
      (centralLokiRecord stAtCall stAtFormat level msg meta).traceId
        = some ((ContextManager.getContext stAtFormat).1).traceId)
    ∧ (∀ (stAtCall stACall2 stAtFormat : CMState) (level msg : String) (meta : Option String),
      centralLokiRecord stAtCall stAtFormat level msg meta
        = centralLokiRecord stACall2 stAtFormat level msg meta) := by
  refine ⟨addLog_getLast, ?_, ?_, ?_, ?_, ?_⟩
  · intro st level msg
    rfl
  · intro stAtCall stAtTransport msg meta
    rfl
  · intro stAtCall st1 st2 msg meta
    rfl
  · intro stAtCall stAtFormat level msg meta
    rfl
  · intro s1 s2 sf level msg meta
    rfl

/-- Claim C9: the overall status is unhealthy exactly when some sub-check
is unhealthy, degraded exactly when none is unhealthy and some is
degraded, and healthy exactly when all three sub-checks are healthy. -/
theorem healthCheck_overall_status :
    ∀ (lc mc tc : SubCheck),
      ((performHealthCheck lc mc tc).status = HealthStatus.unhealthy
        ↔ (lc.status = HealthStatus.unhealthy ∨ mc.status = HealthStatus.unhealthy
            ∨ tc.status = HealthStatus.unhealthy))
      ∧ ((performHealthCheck lc mc tc).status = HealthStatus.degraded
        ↔ (¬ (lc.status = HealthStatus.unhealthy ∨ mc.status = HealthStatus.unhealthy
              ∨ tc.status = HealthStatus.unhealthy)
            ∧ (lc.status = HealthStatus.degraded ∨ mc.status = HealthStatus.degraded
              ∨ tc.status = HealthStatus.degraded)))
      ∧ ((performHealthCheck lc mc tc).status = HealthStatus.healthy
        ↔ (lc.status = HealthStatus.healthy ∧ mc.status = HealthStatus.healthy
            ∧ tc.status = HealthStatus.healthy)) := by
  intro lc mc tc
  rcases lc with ⟨ls, ld⟩
  rcases mc with ⟨ms, md⟩
  rcases tc with ⟨ts, td⟩
  cases ls <;> cases ms <;> cases ts <;>
    simp [performHealthCheck, List.contains]

